import Mathlib

set_option maxRecDepth 8192

namespace HeritageCrawl

/-!
Shallow embedding of the heritage_crawl repository.

Strings are modelled as Lean `String` (a list of unicode code points), which
matches Python 3 `str` for the operations used by the code (`len` counts code
points, slicing is by code point).  Where convenient the underlying
`List Char` is manipulated directly.

External libraries (hashlib digests, langdetect, trafilatura, tldextract,
json/datetime formatting) are modelled as explicit function parameters or
small faithful serializers; the code under verification only passes their
results around, never inspects them.
-/

/-! ### Python string primitives -/

/-- The Python `str` whitespace set, as used by `str.split()` (no argument)
and `str.strip()` (no argument). -/
def pyWs (c : Char) : Bool :=
  c == ' ' || c == '\t' || c == '\n' || c == '\x0b' || c == '\x0c' || c == '\r' ||
  c == '\x1c' || c == '\x1d' || c == '\x1e' || c == '\x1f' || c == '\x85' ||
  c == '\xa0' || c == ' ' ||
  (decide (' ' ≤ c) && decide (c ≤ ' ')) ||
  c == ' ' || c == ' ' || c == ' ' || c == ' ' || c == '　'

/-- Python `s.strip()` on the character list of a string. -/
def pyStrip (l : List Char) : List Char :=
  ((l.dropWhile pyWs).reverse.dropWhile pyWs).reverse

/-- Python `s.strip()`. -/
def pyStripS (s : String) : String := String.mk (pyStrip s.data)

/-- Accumulator loop for Python `s.split()` (split on whitespace runs,
dropping empty fields).  `cur` holds the current word reversed. -/
def pyWordsAux (cur : List Char) : List Char → List (List Char)
  | [] => if cur = [] then [] else [cur.reverse]
  | c :: rest =>
    if pyWs c then
      if cur = [] then pyWordsAux [] rest
      else cur.reverse :: pyWordsAux [] rest
    else pyWordsAux (c :: cur) rest

/-- Python `s.split()` (no separator argument). -/
def pyWords (l : List Char) : List (List Char) := pyWordsAux [] l

/-- `crawler/spiders/focused_spider.py` `_norm`, step 1: the two
`str.replace` calls mapping full-width space and NBSP to a plain space. -/
def replFullwidth (c : Char) : Char :=
  if c == '　' || c == '\xa0' then ' ' else c

/-- Character-list core of `_norm`: `" ".join(s.split())` after the
replacements. -/
def normL (l : List Char) : List Char :=
  List.intercalate [' '] (pyWords (l.map replFullwidth))

/-- `crawler/spiders/focused_spider.py` lines 139-143:

    def _norm(self, s):
        if not s: return ""
        s = s.replace("　", " ").replace("\xa0", " ")
        return " ".join(s.split())

(`None` input is subsumed by the empty string, both being falsy). -/
def _norm (s : String) : String :=
  if s = "" then "" else String.mk (normL s.data)

/-! ### Sentence-boundary chunker `split_text`
(`data_process/ingest_jsonl_to_db.py` lines 61-81; the copy in
`data_process/convert_to_documents_and_chunks.py` lines 54-74 is the same
code with the module constants `MAX_CHARS = 1000`, `MIN_CHARS = 600`). -/

/-- A single-character separator of `SPLIT_PAT = (?:\n{2,}|。|；|！|\?|？)`. -/
def sepChar (c : Char) : Bool :=
  c == '。' || c == '；' || c == '！' || c == '?' || c == '？'

/-- Scanner for `re.split(SPLIT_PAT, text)`.  `inRun = true` while consuming
the tail of a `\n{2,}` separator run; `cur` is the current fragment,
reversed.  `re.split` keeps empty fragments (they are filtered later). -/
def splitPatAux : Bool → List Char → List Char → List (List Char)
  | _, cur, [] => [cur.reverse]
  | inRun, cur, c :: rest =>
    if inRun && c == '\n' then splitPatAux true cur rest
    else if sepChar c then cur.reverse :: splitPatAux false [] rest
    else if c == '\n' && rest.head? == some '\n' then
      cur.reverse :: splitPatAux true [] rest
    else splitPatAux false (c :: cur) rest

/-- `re.split(SPLIT_PAT, text)`. -/
def splitPat (l : List Char) : List (List Char) := splitPatAux false [] l

/-- The greedy packing loop of `split_text`:

    chunks, buf = [], ""
    for p in parts:
        if len(buf) + len(p) + 1 <= max_chars:
            buf = (buf + " " + p).strip() if buf else p
        else:
            if buf: chunks.append(buf)
            buf = p
    if buf: chunks.append(buf)
-/
def packAux (max_chars : Nat) (buf : List Char) : List (List Char) → List (List Char)
  | [] => if buf = [] then [] else [buf]
  | p :: ps =>
    if buf.length + p.length + 1 ≤ max_chars then
      packAux max_chars (if buf = [] then p else pyStrip (buf ++ ' ' :: p)) ps
    else
      if buf = [] then packAux max_chars p ps
      else buf :: packAux max_chars p ps

/-- The short-chunk merge loop of `split_text`:

    merged = []
    for c in chunks:
        if merged and len(c) < min_chars and len(merged[-1]) + len(c) + 1 <= int(max_chars*1.5):
            merged[-1] = (merged[-1] + " " + c).strip()
        else:
            merged.append(c)

Only `merged[-1]` is ever updated, so the loop is rendered with the current
last chunk as accumulator `cur`. -/
def mergeAux (min_chars limit : Nat) (cur : List Char) : List (List Char) → List (List Char)
  | [] => [cur]
  | c :: cs =>
    if c.length < min_chars ∧ cur.length + c.length + 1 ≤ limit then
      mergeAux min_chars limit (pyStrip (cur ++ ' ' :: c)) cs
    else cur :: mergeAux min_chars limit c cs

/-- The merge pass entry (the first chunk is always appended verbatim since
`merged` starts empty). -/
def mergePass (min_chars limit : Nat) : List (List Char) → List (List Char)
  | [] => []
  | c :: cs => mergeAux min_chars limit c cs

/-- `int(max_chars * 1.5)`.  For a natural `max_chars` in the exactly
representable float range this equals `3 * max_chars / 2` (floor). -/
def mergeLimit (max_chars : Nat) : Nat := 3 * max_chars / 2

/-- `split_text(text, max_chars, min_chars)` of
`data_process/ingest_jsonl_to_db.py`:

    if not text: return []
    parts = [p.strip() for p in SPLIT_PAT.split(text) if p.strip()]
    ... packing loop ...
    ... merge loop ...
    return merged
-/
def split_text (max_chars min_chars : Nat) (text : List Char) : List (List Char) :=
  if text = [] then []
  else
    mergePass min_chars (mergeLimit max_chars)
      (packAux max_chars [] (((splitPat text).map pyStrip).filter (fun p => p ≠ [])))

/-- A list with no leading and no trailing Python whitespace (the shape of
every stripped non-empty fragment). -/
def noWsEnds (l : List Char) : Prop :=
  (∀ c ∈ l.head?, pyWs c = false) ∧ (∀ c ∈ l.getLast?, pyWs c = false)

/-- Every element is non-empty and stripped. -/
def allStripped (l : List (List Char)) : Prop :=
  ∀ x ∈ l, x ≠ [] ∧ noWsEnds x

/-- Module constant of `convert_to_documents_and_chunks.py`. -/
def MAX_CHARS : Nat := 1000

/-- Module constant of `convert_to_documents_and_chunks.py`. -/
def MIN_CHARS : Nat := 600

/-- `split_text` of `convert_to_documents_and_chunks.py` lines 54-74: the
same algorithm with the module constants baked in. -/
def split_text_conv (text : List Char) : List (List Char) :=
  split_text MAX_CHARS MIN_CHARS text

/-! ### Fixed-window chunker `make_chunks`
(`ingest_jsonl_to_polardb.py` lines 32-56). -/

/-- One produced chunk `(char_start, char_end, chunk, token_estimate)`.
The `content_md5` component (hexdigest of the chunk text, a pure function of
`content`) is not relevant to any claim and is omitted from the tuple. -/
structure PgChunk where
  char_start : Nat
  char_end : Nat
  content : List Char
  token_estimate : Nat
deriving DecidableEq, Repr

/-- `max(1, math.ceil(len(chunk) / 4))`. -/
def tokenEstimate (len : Nat) : Nat := max 1 ((len + 3) / 4)

/-- The `while start < n` loop of `make_chunks`, with explicit fuel (the
Python loop has no structural bound; termination is exactly what claim C2 is
about).  `none` means the fuel ran out before the loop exited.

    while start < n:
        end = min(start + size, n)
        chunk = text[start:end]
        ...append (start, end, chunk, token_est, md5)...
        if end == n: break
        start = max(0, end - overlap)

`max(0, end - overlap)` is natural-number truncated subtraction. -/
def chunkLoop (text : List Char) (n size overlap : Nat) : Nat → Nat → Option (List PgChunk)
  | 0, _ => none
  | fuel + 1, start =>
    if start < n then
      let e := min (start + size) n
      let chunk := (text.drop start).take (e - start)
      let rec0 : PgChunk := ⟨start, e, chunk, tokenEstimate chunk.length⟩
      if e = n then some [rec0]
      else
        match chunkLoop text n size overlap fuel (e - overlap) with
        | none => none
        | some rest => some (rec0 :: rest)
    else some []

/-- `make_chunks(text, size, overlap)`, run with fuel `len(text) + 1`
(enough whenever the loop terminates at all, per the termination theorem). -/
def make_chunks (text : List Char) (size overlap : Nat) : Option (List PgChunk) :=
  if text = [] then some []
  else chunkLoop text text.length size overlap (text.length + 1) 0

/-- The window-start update `start = max(0, end - overlap)` performed when
the loop does not break. -/
def nextStart (size overlap n start : Nat) : Nat := min (start + size) n - overlap

/-! ### `crawler/spiders/focused_spider.py` — structured blocks and text
synthesis.

Python dicts are modelled as insertion-ordered association lists with unique
keys (`Dict := List (String × String)`); `dict.get` is the first (only)
match, assignment to an existing key overwrites in place. -/

/-- An insertion-ordered Python dict of string keys/values. -/
def Dict := List (String × String)
deriving DecidableEq, Repr

/-- `d.get(k)` — `none` models Python `None`. -/
def dget (d : Dict) (k : String) : Option String :=
  (List.find? (fun kv => kv.1 = k) d).map (fun kv => kv.2)

/-- `d.get(k) or ""` followed by nothing: the raw string value, `""` when
missing. -/
def dgetD (d : Dict) (k : String) : String := (dget d k).getD ""

/-- `d[k] = v` with Python-dict semantics: overwrite in place if the key
exists, else append. -/
def dset (d : Dict) (k v : String) : Dict :=
  match d with
  | [] => [(k, v)]
  | kv :: rest => if kv.1 = k then (k, v) :: rest else kv :: dset rest k v

/-- Python truthiness-plus-strip filter used by the block renderers:
`if v and str(v).strip()`. -/
def truthyStripped (v : String) : Bool := v ≠ "" && pyStripS v ≠ ""

/-- `META_KEYS` (focused_spider.py lines 10-13). -/
def META_KEYS : List String :=
  ["项目序号", "项目编号", "公布时间", "公布批次", "批次",
   "类别", "所属地区", "类型", "申报地区或单位", "保护单位"]

/-- `BEARER_KEYS` (focused_spider.py lines 16-19). -/
def BEARER_KEYS : List String :=
  ["编号", "姓名", "性别", "出生日期", "民族",
   "类别", "项目编号", "项目名称", "申报地区或单位"]

/-- `_block_meta_readable` (focused_spider.py lines 64-78).  The local
`order` list equals `META_KEYS`. -/
def _block_meta_readable (meta : Dict) : String :=
  if meta = [] then ""
  else
    let ordered := (META_KEYS.filterMap (fun k =>
      match dget meta k with
      | some v => if truthyStripped v then some (k ++ "：" ++ pyStripS v) else none
      | none => none))
    let extras := (meta.filterMap (fun kv =>
      if kv.1 ∉ META_KEYS ∧ truthyStripped kv.2 then
        some (kv.1 ++ "：" ++ pyStripS kv.2)
      else none))
    let lines := ordered ++ extras
    if lines = [] then ""
    else "【项目基本信息】\n" ++ String.intercalate "\n" lines

/-- The bearer rendering order (local `order` of `_block_bearers_readable`,
equal to `BEARER_KEYS`). -/
def BEARER_ORDER : List String := BEARER_KEYS

/-- One bearer line of `_block_bearers_readable` (focused_spider.py lines
85-115): name/gender/ethnicity/birth-date head, then remaining ordered keys,
then extra keys; `none` when the `head` list stays empty. -/
def bearerLine (b : Dict) : Option String :=
  let name := pyStripS (dgetD b "姓名")
  let gender := pyStripS (dgetD b "性别")
  let eth := pyStripS (dgetD b "民族")
  let dob := pyStripS (dgetD b "出生日期")
  let headName : List String :=
    if name ≠ "" then
      let attrs := (if gender ≠ "" then ["性别：" ++ gender] else []) ++
                   (if eth ≠ "" then ["民族：" ++ eth] else []) ++
                   (if dob ≠ "" then ["出生日期：" ++ dob] else [])
      [("姓名：" ++ name) ++
        (if attrs ≠ [] then "（" ++ String.intercalate "，" attrs ++ "）" else "")]
    else []
  let ordered := BEARER_ORDER.filterMap (fun k =>
    if k = "姓名" ∨ k = "性别" ∨ k = "民族" ∨ k = "出生日期" then none
    else match dget b k with
      | some v => if truthyStripped v then some (k ++ "：" ++ pyStripS v) else none
      | none => none)
  let extras := b.filterMap (fun kv =>
    if kv.1 ∉ BEARER_ORDER ∧ truthyStripped kv.2 then
      some (kv.1 ++ "：" ++ pyStripS kv.2)
    else none)
  let head := headName ++ ordered ++ extras
  if head = [] then none else some ("- " ++ String.intercalate "；" head)

/-- `_block_bearers_readable` (focused_spider.py lines 80-116). -/
def _block_bearers_readable (bearers : List Dict) : String :=
  if bearers = [] then ""
  else
    let lines := bearers.filterMap bearerLine
    if lines = [] then ""
    else "【代表性传承人】\n" ++ String.intercalate "\n" lines

/-- Minimal model of `json.dumps(..., ensure_ascii=False)` on a flat string
dict (insertion order preserved, default separators).  Only ever consumed as
an opaque block payload. -/
def dumpsDict (d : Dict) : String :=
  "\x7b" ++
    String.intercalate ", " (d.map (fun kv => "\"" ++ kv.1 ++ "\": \"" ++ kv.2 ++ "\"")) ++
  "\x7d"

/-- `json.dumps` on a list of dicts (for the bearers payload). -/
def dumpsDictList (l : List Dict) : String :=
  "[" ++ String.intercalate ", " (l.map dumpsDict) ++ "]"

/-- `_block_meta_json` (focused_spider.py lines 119-123). -/
def _block_meta_json (meta : Dict) : String :=
  if meta = [] then "" else "【项目基本信息-JSON】\n" ++ dumpsDict meta

/-- `_block_bearers_json` (focused_spider.py lines 125-129). -/
def _block_bearers_json (bearers : List Dict) : String :=
  if bearers = [] then "" else "【代表性传承人-JSON】\n" ++ dumpsDictList bearers

/-- The enrichment mode (constructor `noneM` models the string `"none"`). -/
inductive EnrichMode where
  | noneM | append | replace
deriving DecidableEq, Repr

/-- The block format. -/
inductive EnrichFormat where
  | readable | json
deriving DecidableEq, Repr

/-- `RULER = "\n\n——\n\n"` (focused_spider.py lines 54 and 379). -/
def RULER : String := "\n\n——\n\n"

/-- The final-text synthesis section of `parse_article`
(focused_spider.py lines 378-407), as a pure function of
`(mode, format, meta, bearers, body_paras)`:

    base_body = "\n".join(body_paras).strip()
    ...meta_block / bearers_block per format...
    blocks = [b for b in (meta_block, bearers_block) if b]
    if mode == "replace":
        text_clean = RULER.join(blocks).strip() if blocks else base_body
    elif mode == "append":
        if base_body and blocks: text_clean = (base_body + RULER + RULER.join(blocks)).strip()
        elif blocks: text_clean = RULER.join(blocks).strip()
        else: text_clean = base_body
    else:
        meta_lines = [f"{k}：{v}" for k, v in meta.items()]
        text_clean = "\n".join(meta_lines + ([""] if meta_lines and body_paras else []) + body_paras).strip()
-/
def synthText (mode : EnrichMode) (format : EnrichFormat)
    (meta : Dict) (bearers : List Dict) (body_paras : List String) : String :=
  let base_body := pyStripS (String.intercalate "\n" body_paras)
  let meta_block :=
    match format with
    | .json => _block_meta_json meta
    | .readable => _block_meta_readable meta
  let bearers_block :=
    match format with
    | .json => _block_bearers_json bearers
    | .readable => _block_bearers_readable bearers
  let blocks := [meta_block, bearers_block].filter (fun b => b ≠ "")
  match mode with
  | .replace =>
      if blocks ≠ [] then pyStripS (String.intercalate RULER blocks) else base_body
  | .append =>
      if base_body ≠ "" ∧ blocks ≠ [] then
        pyStripS (base_body ++ RULER ++ String.intercalate RULER blocks)
      else if blocks ≠ [] then pyStripS (String.intercalate RULER blocks)
      else base_body
  | .noneM =>
      let meta_lines := meta.map (fun kv => kv.1 ++ "：" ++ kv.2)
      pyStripS (String.intercalate "\n"
        (meta_lines ++ (if meta_lines ≠ [] ∧ body_paras ≠ [] then [""] else []) ++ body_paras))

/-! ### `crawler/spiders/focused_spider.py` — bearer-table parsing.

An HTML table is modelled after the selector layer as a list of rows, each
row an ordered list of cells carrying their tag (`th` or `td`) and joined
raw text (the `"".join(c.css("*::text, ::text").getall())` value). -/

/-- A table cell: its tag and raw joined text. -/
structure Cell where
  isTh : Bool
  text : String
deriving DecidableEq, Repr

/-- A table: its `tr` rows, each the ordered `th`/`td` cells. -/
def Table := List (List Cell)
deriving DecidableEq, Repr

/-- `h.replace("：", "")` — removal of every full-width colon (the pattern
is a single character, so `str.replace` is a character filter). -/
def dropFullColon (s : String) : String :=
  String.mk (s.data.filter (fun c => c ≠ '：'))

/-- The filtered header-cell list of `_table_rows` (lines 289-292):

    header_cells = [norm(join(texts)) for c in first_tr.css("th, td")]
    header_cells = [h.replace("：", "").strip() for h in header_cells if self._norm(h)]

(On the empty table `tr:first-child` selects nothing and the list is empty.)
-/
def headerCells (tbl : Table) : List String :=
  match tbl.head? with
  | none => []
  | some row =>
    ((row.map (fun c => _norm c.text)).filter (fun h => _norm h ≠ "")).map
      (fun h => pyStripS (dropFullColon h))

/-- `sum(1 for h in header_cells if h in BEARER_KEYS_SET)`. -/
def bearerMatchCount (tbl : Table) : Nat :=
  (headerCells tbl).countP (fun h => BEARER_KEYS.contains h)

/-- The header-row test of `_table_rows` (line 295):
`header_cells and sum(...) >= max(3, len(header_cells)//2)`. -/
def headerQualifies (tbl : Table) : Bool :=
  headerCells tbl ≠ [] ∧
    max 3 ((headerCells tbl).length / 2) ≤ bearerMatchCount tbl

/-- The normalized `td` cell texts of one row (lines 303-304 and 308). -/
def tdCells (row : List Cell) : List String :=
  (row.filter (fun c => !c.isTh)).map (fun c => _norm c.text)

/-- `bearer_prefix_regex = ^(label-alternation)\s*[：:　 ]*`, compiled
from `BEARER_KEYS` (line 60-61).  Returns the matched label and the rest of
the string after the greedy whitespace/colon run; `none` when no label is a
prefix.  (No `BEARER_KEYS` entry is a prefix of a later entry, so
first-alternative regex matching is plain first-prefix search.) -/
def bearerLabelMatch (s : String) : Option (String × List Char) :=
  match BEARER_KEYS.find? (fun l => l.data.isPrefixOf s.data) with
  | none => none
  | some l =>
    let rest := (s.data.drop l.data.length).dropWhile pyWs
    some (l, rest.dropWhile (fun c => c ∈ ['：', ':', '　', ' ']))

/-- `_strip_bearer_prefix` (lines 265-266):
`self.bearer_prefix_regex.sub("", value).strip()`. -/
def stripBearerLabel (value : String) : String :=
  match bearerLabelMatch value with
  | some lr => pyStripS (String.mk lr.2)
  | none => pyStripS value

/-- The positional placeholder column name `f"列{i+1}"` (0-based `i`). -/
def placeholderCol (i : Nat) : String := "列" ++ toString (i + 1)

/-- `_derive_headers_from_first_row` (lines 268-284). -/
def _derive_headers_from_first_row (cells : List String) : List String :=
  (cells.enum).map (fun ic =>
    match bearerLabelMatch ic.2 with
    | some lr => _norm lr.1
    | none => placeholderCol ic.1)

/-- Reading one data row positionally against `headers` (lines 307-319):
empty cell lists are skipped, each value is stripped of a leading bearer
label, and the row is kept only if some value is non-empty. -/
def readRow (headers : List String) (cells : List String) : Option Dict :=
  if cells = [] then none
  else
    let row := (cells.enum).foldl
      (fun acc iv => dset acc (headers.getD iv.1 (placeholderCol iv.1)) (stripBearerLabel iv.2))
      []
    if row.any (fun kv => kv.2 ≠ "") then some row else none

/-- `_table_rows` (focused_spider.py lines 286-319). -/
def _table_rows (tbl : Table) : List Dict :=
  let hd :=
    if headerQualifies tbl then (headerCells tbl, tbl.tail)
    else
      match tbl with
      | [] => ([], [])
      | r0 :: _ => (_derive_headers_from_first_row (tdCells r0), tbl)
  (hd.2.map tdCells).filterMap (readRow hd.1)

/-! ### `crawler/pipelines.py` — the dedup & store gate.

External collaborators (hashlib sha1, trafilatura extract, langdetect,
tldextract) are explicit function parameters bundled in `Ext`; the pipeline
only threads their results.  Raw bytes are `List Nat`.  `time.time()` is an
explicit `now` argument. -/

/-- External functions used by `process_item`. -/
structure Ext where
  /-- `hashlib.sha1(bytes).hexdigest()`. -/
  sha1Bytes : List Nat → String
  /-- `hashlib.sha1(text.encode("utf-8")).hexdigest()`. -/
  sha1Str : String → String
  /-- `trafilatura.extract(...) or ""` with exceptions mapped to `""`. -/
  extract : List Nat → String
  /-- `langdetect.detect(text)`; `none` models a raised exception. -/
  detect : String → Option String
  /-- `tldextract.extract(url).domain`. -/
  tldDomain : String → String

/-- A row of the sqlite `seen` table (`url` is the primary key). -/
structure SeenRow where
  url : String
  checksum : String
  fetched_at : Nat
deriving DecidableEq, Repr

/-- A row of the sqlite `text_index` table (`checksum` is the primary key). -/
structure TextIndexRow where
  checksum : String
  url : String
  title : Option String
  lang : String
deriving DecidableEq, Repr

/-- The JSON record appended to `data/text/<domain>.jsonl` (pipelines.py
lines 117-135). -/
structure OutRec where
  url : String
  domain : Option String
  fetched_at : Option Nat
  status : Option Nat
  content_type : Option String
  title : Option String
  lang : String
  text : String
  checksum : String
  license : Option String
  robots : Option String
  outlinks : List String
  meta : Option Dict
  bearers : Option (List Dict)
  bodytext : Option (List String)
  text_lines : Option (List String)
deriving DecidableEq, Repr

/-- The durable state touched by `DedupeAndStorePipeline`: the two sqlite
tables plus the per-domain append-only JSONL logs. -/
structure Store where
  seen : List SeenRow
  textIndex : List TextIndexRow
  files : List (String × OutRec)
deriving DecidableEq, Repr

/-- `INSERT OR REPLACE INTO seen(url, checksum, fetched_at)`. -/
def insertSeen (now : Nat) (url checksum : String) : List SeenRow → List SeenRow
  | [] => [⟨url, checksum, now⟩]
  | r :: rs =>
    if r.url = url then ⟨url, checksum, now⟩ :: rs else r :: insertSeen now url checksum rs

/-- `_mark_seen(url, checksum)` (pipelines.py lines 33-38). -/
def markSeen (now : Nat) (url checksum : String) (st : Store) : Store :=
  { st with seen := insertSeen now url checksum st.seen }

/-- `INSERT OR REPLACE INTO text_index(checksum, url, title, lang)`. -/
def insertTextIndex (row : TextIndexRow) : List TextIndexRow → List TextIndexRow
  | [] => [row]
  | r :: rs => if r.checksum = row.checksum then row :: rs else r :: insertTextIndex row rs

/-- `_seen(url)` (pipelines.py lines 29-31). -/
def seenQ (st : Store) (url : String) : Bool :=
  st.seen.any (fun r => r.url = url)

/-- The incoming scrapy item as read by `process_item` (`crawler/items.py`).
`raw` carries the bytes read from `html_path` (empty list when the path is
absent or the file does not exist); the optional `text` field is modelled as
already decoded (the pipeline decodes bytes permissively). -/
structure CrawlItem where
  url : Option String
  raw : List Nat
  text_lines : Option (List String)
  bodytext : Option (List String)
  text : Option String
  title : Option String
  domain : Option String
  fetched_at : Option Nat
  status : Option Nat
  content_type : Option String
  license : Option String
  robots : Option String
  outlinks : List String
  meta : Option Dict
  bearers : Option (List Dict)
deriving DecidableEq, Repr

/-- `raw_checksum = hashlib.sha1(raw).hexdigest() if raw else None`. -/
def rawChecksum (ext : Ext) (it : CrawlItem) : Option String :=
  if it.raw ≠ [] then some (ext.sha1Bytes it.raw) else none

/-- Python truthiness of an optional list. -/
def truthyList (o : Option (List String)) : Option (List String) :=
  match o with
  | some l => if l ≠ [] then some l else none
  | none => none

/-- Steps 3 of `process_item` (pipelines.py lines 58-83): resolve the text
to store.  `None` is conflated with `""` (both falsy, and only emptiness is
ever tested downstream).

    lines = adapter.get("text_lines") or adapter.get("bodytext")
    if lines and isinstance(lines, (list, tuple)):
        text = "\n".join(str(x) for x in lines).strip()
    if not text: text = (adapter.get("text") or "").strip()
    if not text: text = (extract(raw decoded) or "") if raw else ""
-/
def resolveText (ext : Ext) (it : CrawlItem) : String :=
  let lines := match truthyList it.text_lines with
    | some l => some l
    | none => it.bodytext
  let t1 := match truthyList lines with
    | some l => pyStripS (String.intercalate "\n" l)
    | none => ""
  let t2 := if t1 ≠ "" then t1 else pyStripS ((it.text).getD "")
  if t2 ≠ "" then t2
  else if it.raw ≠ [] then ext.extract it.raw
  else ""

/-- The outcome of `process_item`: `DropItem(reason)` or the (returned)
item's written-back fields. -/
inductive POut where
  | dropped (reason : String)
  | accepted (lang text checksum : String)
deriving DecidableEq, Repr

/-- `process_item` (pipelines.py lines 40-152), as a function from
`(externals, now, store, item)` to `(outcome, store)`. -/
def process_item (ext : Ext) (now : Nat) (st : Store) (it : CrawlItem) :
    POut × Store :=
  match it.url with
  | none => (.dropped "no-url", st)
  | some url =>
    if seenQ st url then (.dropped "dup-url", st)
    else
      let raw_checksum := rawChecksum ext it
      let text := resolveText ext it
      if (pyStripS text).length < 20 then
        (.dropped "short", markSeen now url (raw_checksum.getD "") st)
      else
        let lang := (ext.detect text).getD "und"
        let checksum := ext.sha1Str text
        if st.textIndex.any (fun r => r.checksum = checksum) then
          (.dropped "dup-content", markSeen now url (raw_checksum.getD checksum) st)
        else
          let dom := match it.domain with
            | some d => if d ≠ "" then d else ext.tldDomain url
            | none => ext.tldDomain url
          let out : OutRec :=
            ⟨url, it.domain, it.fetched_at, it.status, it.content_type, it.title,
             lang, text, checksum, it.license, it.robots, it.outlinks, it.meta,
             it.bearers, it.bodytext, it.text_lines⟩
          let st1 := { st with files := st.files ++ [(dom, out)] }
          let st2 := { st1 with textIndex := insertTextIndex ⟨checksum, url, it.title, lang⟩ st1.textIndex }
          let st3 := markSeen now url (raw_checksum.getD checksum) st2
          (.accepted lang text checksum, st3)

/-- The checksum value recorded for a url in the `seen` table. -/
def seenChecksum (st : Store) (url : String) : Option String :=
  (st.seen.find? (fun r => r.url = url)).map (fun r => r.checksum)

/-! ### `data_process/ingest_jsonl_to_db.py` — document upsert (C4).

The documents table is a list of rows with `url` as the unique natural key;
the `INSERT ... ON CONFLICT (url) DO UPDATE` statements `DOCS_SQL_WITH_ID` /
`DOCS_SQL_AUTO_ID` (lines 84-112) are modelled by their row-level
semantics.  The `extra_json` payload is carried as its serialized text
(`json.dumps(extra)`), `none` being SQL NULL (record had no `extra_json`
key); its internal structure never matters to the upsert. -/

/-- A row of the `documents` table of `ingest_jsonl_to_db.py`. -/
structure DocRowDb where
  id : Int
  url : String
  domain : Option String
  fetched_at_iso : Option String
  title : Option String
  lang : Option String
  text : String
  extra_json : Option String
deriving DecidableEq, Repr

/-- The input record of `upsert_document` (`ingest_jsonl_to_db.py` line
114).  `fetched_at_iso` is the value of
`rec.get("fetched_at_iso") or to_iso(rec.get("fetched_at"))`, computed
upstream of the SQL statement (`to_iso` is stdlib datetime formatting);
`id` is the parsed `rec.get("id")` (`none` when absent or blank). -/
structure DbRec where
  id : Option Int
  url : Option String
  domain : Option String
  fetched_at_iso : Option String
  title : Option String
  lang : Option String
  text : Option String
  extra_json : Option String
deriving DecidableEq, Repr

/-- `ensure_url(url, title, text)` (`ingest_jsonl_to_db.py` lines 38-44);
`md5hex` models `hashlib.md5(...).hexdigest()`. -/
def ensure_url (md5hex : String → String) (url : Option String)
    (title text : String) : String :=
  match url with
  | some u => if pyStripS u ≠ "" then pyStripS u else
      "missing://" ++ md5hex (title ++ "|" ++ text)
  | none => "missing://" ++ md5hex (title ++ "|" ++ text)

/-- The `DO UPDATE SET` clause shared by `DOCS_SQL_WITH_ID` and
`DOCS_SQL_AUTO_ID` (lines 88-95 / 103-110): every mutable field takes the
excluded (new) value except
`extra_json = COALESCE(EXCLUDED.extra_json, documents.extra_json)`. -/
def updateDocRowDb (rec : DbRec) (text : String) (old : DocRowDb) : DocRowDb :=
  { old with
    domain := rec.domain
    fetched_at_iso := rec.fetched_at_iso
    title := rec.title
    lang := rec.lang
    text := text
    extra_json := match rec.extra_json with
      | some e => some e
      | none => old.extra_json }

/-- `upsert_document(cur, rec)` (`ingest_jsonl_to_db.py` lines 114-137)
against table state `tbl` with auto-increment counter `serial`.  Returns
`(RETURNING id, new table, new counter)`. -/
def upsert_document_db (md5hex : String → String) (tbl : List DocRowDb)
    (serial : Int) (rec : DbRec) : Int × List DocRowDb × Int :=
  let url := ensure_url md5hex rec.url (rec.title.getD "") (rec.text.getD "")
  let text := rec.text.getD ""
  match tbl.find? (fun r => r.url = url) with
  | some old =>
    (old.id,
     tbl.map (fun r => if r.url = url then updateDocRowDb rec text r else r),
     serial)
  | none =>
    let id := match rec.id with
      | some rid => rid
      | none => serial + 1
    (id,
     tbl ++ [⟨id, url, rec.domain, rec.fetched_at_iso, rec.title, rec.lang, text,
             rec.extra_json⟩],
     match rec.id with | some _ => serial | none => serial + 1)

/-! ### `ingest_jsonl_to_polardb.py` — document upsert (C4).

Here the parameter bound to `extra_json` is `to_jsonb(%s::json)` of
`json.dumps(extra, ensure_ascii=False)` where
`extra = {k: v for k, v in obj.items() if k not in known} or None`:
the column value is *never* SQL NULL — when the record has no extra keys,
`json.dumps(None)` is the literal `"null"` and the stored jsonb is JSON
null.  The `ON CONFLICT` clause sets `extra_json = EXCLUDED.extra_json`
unconditionally (line 134). -/

/-- A row of the PolarDB `documents` table. -/
structure DocRowPg where
  id : Nat
  url : String
  domain : Option String
  fetched_at : Option Int
  fetched_at_iso : Option String
  status : Option Nat
  content_type : Option String
  title : Option String
  lang : Option String
  text : Option String
  raw_html : Option String
  /-- jsonb text; `"null"` is JSON null, never SQL NULL. -/
  extra_json : String
deriving DecidableEq, Repr

/-- The input record of the PolarDB `upsert_document`
(`ingest_jsonl_to_polardb.py` line 99).  `extraKeys` are the items of the
record outside the `known` field set, serialized: the modelled value of
`json.dumps({k: v ...}, ensure_ascii=False)` per key. -/
structure PgRec where
  url : Option String
  domain : Option String
  fetched_at : Option Int
  fetched_at_iso : Option String
  status : Option Nat
  content_type : Option String
  title : Option String
  lang : Option String
  text : Option String
  html : Option String
  raw_html : Option String
  extraKeys : List (String × String)
deriving DecidableEq, Repr

/-- `json.dumps(extra, ensure_ascii=False)` for
`extra = {unknown keys} or None` — the jsonb text stored in `extra_json`. -/
def pgExtraJson (rec : PgRec) : String :=
  if rec.extraKeys = [] then "null" else dumpsDict rec.extraKeys

/-- `ensure_url(obj)` (`ingest_jsonl_to_polardb.py` lines 83-96). -/
def ensure_url_pg (md5hex : String → String) (rec : PgRec) : String :=
  match rec.url with
  | some u => if pyStripS u ≠ "" then pyStripS u else
      "missing://" ++ md5hex ((rec.title.getD "") ++ "|" ++
        ((rec.text).getD ((rec.html).getD ((rec.raw_html).getD ""))))
  | none => "missing://" ++ md5hex ((rec.title.getD "") ++ "|" ++
      ((rec.text).getD ((rec.html).getD ((rec.raw_html).getD ""))))

/-- The `DO UPDATE SET` clause of the PolarDB upsert (lines 124-135):
every field, `extra_json` included, takes the excluded value. -/
def updateDocRowPg (rec : PgRec) (old : DocRowPg) : DocRowPg :=
  { old with
    domain := rec.domain
    fetched_at := rec.fetched_at
    fetched_at_iso := rec.fetched_at_iso
    status := rec.status
    content_type := rec.content_type
    title := rec.title
    lang := rec.lang
    text := rec.text
    raw_html := match rec.html with | some h => some h | none => rec.raw_html
    extra_json := pgExtraJson rec }

/-- `upsert_document(cur, obj)` (`ingest_jsonl_to_polardb.py` lines
99-153) against table state `tbl` with serial counter `serial`. -/
def upsert_document_pg (md5hex : String → String) (tbl : List DocRowPg)
    (serial : Nat) (rec : PgRec) : Nat × List DocRowPg × Nat :=
  let url := ensure_url_pg md5hex rec
  match tbl.find? (fun r => r.url = url) with
  | some old =>
    (old.id, tbl.map (fun r => if r.url = url then updateDocRowPg rec r else r), serial)
  | none =>
    (serial + 1,
     tbl ++ [⟨serial + 1, url, rec.domain, rec.fetched_at, rec.fetched_at_iso,
             rec.status, rec.content_type, rec.title, rec.lang, rec.text,
             (match rec.html with | some h => some h | none => rec.raw_html),
             pgExtraJson rec⟩],
     serial + 1)

/-! ### `data_process/convert_to_documents_and_chunks.py` — `stable_id`
(lines 27-40). -/

/-- A scalar JSON value as found in the input records. -/
inductive PyScalar where
  | pInt (n : Int)
  | pStr (s : String)
  | pNull
deriving DecidableEq, Repr

/-- A parsed JSON object (insertion-ordered, unique keys). -/
def PyObj := List (String × PyScalar)
deriving DecidableEq, Repr

/-- Python `int(str)`: surrounding whitespace, an optional sign, then a
non-empty digit run.  (Digit-group underscores are not modelled; they never
occur in the ingested records.) -/
def pyParseInt (s : String) : Option Int :=
  let l := pyStrip s.data
  let core : Option (Bool × List Char) :=
    match l with
    | '-' :: rest => some (true, rest)
    | '+' :: rest => some (false, rest)
    | rest => some (false, rest)
  match core with
  | some (neg, ds) =>
    if ds ≠ [] ∧ ds.all (fun c => c.isDigit) then
      let v : Nat := ds.foldl (fun a c => a * 10 + (c.toNat - '0'.toNat)) 0
      some (if neg then -(v : Int) else (v : Int))
    else none
  | none => none

/-- Python `int(value)` on a JSON scalar; `none` models a raised
exception (caught by the `try/except: pass` of `stable_id`). -/
def pyIntOfScalar : PyScalar → Option Int
  | .pInt n => some n
  | .pStr s => pyParseInt s
  | .pNull => none

/-- The explicit-id branch of `stable_id`:
`if "id" in obj and obj["id"] not in (None, ""): try: return int(obj["id"])`
— `some n` exactly when the branch returns. -/
def explicitId (obj : PyObj) : Option Int :=
  match List.lookup "id" obj with
  | some v => if v ≠ .pNull ∧ v ≠ .pStr "" then pyIntOfScalar v else none
  | none => none

/-- `(obj.get("url") or "").strip()` (records carry string-or-absent
urls). -/
def objUrl (obj : PyObj) : String :=
  match List.lookup "url" obj with
  | some (.pStr s) => pyStripS s
  | _ => ""

/-- Minimal rendering of one scalar for the `json.dumps` model. -/
def dumpsScalar : PyScalar → String
  | .pInt n => toString n
  | .pStr s => "\"" ++ s ++ "\""
  | .pNull => "null"

/-- Insertion sort of the object items by key (model of
`sort_keys=True`). -/
def insertByKey (kv : String × PyScalar) : List (String × PyScalar) → List (String × PyScalar)
  | [] => [kv]
  | p :: ps => if kv.1 ≤ p.1 then kv :: p :: ps else p :: insertByKey kv ps

/-- Key-sorted item list. -/
def sortByKey : List (String × PyScalar) → List (String × PyScalar)
  | [] => []
  | p :: ps => insertByKey p (sortByKey ps)

/-- Model of `json.dumps(obj, ensure_ascii=False, sort_keys=True)`; only
ever consumed by the md5 digest parameter. -/
def pyDumpsSorted (obj : PyObj) : String :=
  "\x7b" ++
    String.intercalate ", "
      ((sortByKey obj).map (fun kv => "\"" ++ kv.1 ++ "\": " ++ dumpsScalar kv.2)) ++
  "\x7d"

/-- `stable_id(obj)` (`convert_to_documents_and_chunks.py` lines 27-40).
`md5_16 s` / `sha1_16 s` model `int(hashlib.md5/sha1(s.encode()).hexdigest()[:16], 16)`
— the value of the first 16 hex digits of the digest.

    if "id" in obj and obj["id"] not in (None, ""):
        try: return int(obj["id"])
        except Exception: pass
    url = (obj.get("url") or "").strip()
    if not url:
        h = md5(dumps(obj, ensure_ascii=False, sort_keys=True))[:16]
    else:
        h = sha1(url)[:16]
    return int(h, 16) & ((1 << 63) - 1)
-/
def stable_id (md5_16 sha1_16 : String → Nat) (obj : PyObj) : Int :=
  match explicitId obj with
  | some n => n
  | none =>
    let url := objUrl obj
    if url = "" then ((md5_16 (pyDumpsSorted obj) &&& (2 ^ 63 - 1) : Nat) : Int)
    else ((sha1_16 url &&& (2 ^ 63 - 1) : Nat) : Int)

/-! ### Concrete inputs used by counterexamples and witnesses. -/

/-- Text whose sentence fragments have lengths 14, 2 and 10. -/
def c1text : List Char := "aaaaaaaaaaaaaa。bb。cccccccccc".data

/-- A one-row bearer table with 4 non-empty cells of which exactly 2 match
the label vocabulary. -/
def c6table : Table := [[⟨false, "姓名"⟩, ⟨false, "性别"⟩, ⟨false, "甲"⟩, ⟨false, "乙"⟩]]

/-- A non-empty meta mapping whose only value is blank after stripping. -/
def c7meta : Dict := [("类别", " ")]

/-- A stored document row (db schema) holding a structured payload. -/
def c4dbOld : DocRowDb := ⟨1, "u", none, none, none, none, "t", some "E"⟩

/-- A re-scrape of the same url carrying no `extra_json` payload. -/
def c4dbRec : DbRec := ⟨none, some "u", none, none, none, none, some "T", none⟩

/-- A stored PolarDB document row holding a structured payload. -/
def c4pgOld : DocRowPg :=
  ⟨1, "u", none, none, none, none, none, none, none, none, none,
   "\x7b\"meta\": 1\x7d"⟩

/-- A re-scrape of the same url with no extra keys (`extra = None`). -/
def c4pgRec : PgRec :=
  ⟨some "u", none, none, none, none, none, none, none, none, none, none, []⟩

/-! ## Lemmas on the Python string primitives -/

theorem pyWordsAux_sound (l : List Char) : ∀ cur, (∀ c ∈ cur, pyWs c = false) →
    ∀ w ∈ pyWordsAux cur l, w ≠ [] ∧ ∀ c ∈ w, pyWs c = false := by
  induction l with
  | nil =>
    intro cur hcur w hw
    by_cases hc : cur = []
    · simp [pyWordsAux, hc] at hw
    · simp only [pyWordsAux, if_neg hc, List.mem_singleton] at hw
      subst hw
      refine ⟨by simpa using hc, ?_⟩
      intro c hcmem
      exact hcur c (List.mem_reverse.mp hcmem)
  | cons c rest ih =>
    intro cur hcur w hw
    by_cases hwsc : pyWs c
    · by_cases hc : cur = []
      · simp only [pyWordsAux, hwsc, if_pos, hc, if_true, reduceIte] at hw
        exact ih [] (by simp) w hw
      · simp only [pyWordsAux, hwsc, if_true, if_neg hc, List.mem_cons, reduceIte] at hw
        rcases hw with hw | hw
        · subst hw
          refine ⟨by simpa using hc, ?_⟩
          intro d hd
          exact hcur d (List.mem_reverse.mp hd)
        · exact ih [] (by simp) w hw
    · simp only [pyWordsAux, hwsc, Bool.false_eq_true, if_false, reduceIte] at hw
      refine ih (c :: cur) ?_ w hw
      intro d hd
      rcases List.mem_cons.mp hd with hd | hd
      · subst hd; simpa using hwsc
      · exact hcur d hd

theorem pyWordsAux_word (w : List Char) : ∀ cur rest, (∀ c ∈ w, pyWs c = false) →
    pyWordsAux cur (w ++ rest) = pyWordsAux (w.reverse ++ cur) rest := by
  induction w with
  | nil => simp
  | cons c cs ih =>
    intro cur rest hw
    have hc : pyWs c = false := hw c (by simp)
    show pyWordsAux cur ((c :: cs) ++ rest) = _
    rw [List.cons_append,
      show pyWordsAux cur (c :: (cs ++ rest)) = pyWordsAux (c :: cur) (cs ++ rest) by
        simp [pyWordsAux, hc],
      ih (c :: cur) rest (fun d hd => hw d (List.mem_cons_of_mem _ hd))]
    simp [List.append_assoc]

theorem pyWordsAux_space (cur : List Char) (rest : List Char) (hc : cur ≠ []) :
    pyWordsAux cur (' ' :: rest) = cur.reverse :: pyWordsAux [] rest := by
  simp [pyWordsAux, hc, pyWs]

theorem intercalate_space_cons_cons (w w2 : List Char) (ws : List (List Char)) :
    List.intercalate [' '] (w :: w2 :: ws) =
      w ++ ' ' :: List.intercalate [' '] (w2 :: ws) := by
  simp [List.intercalate, List.intersperse]

theorem pyWords_intercalate (ws : List (List Char))
    (h : ∀ w ∈ ws, w ≠ [] ∧ ∀ c ∈ w, pyWs c = false) :
    pyWords (List.intercalate [' '] ws) = ws := by
  induction ws with
  | nil => simp [pyWords, pyWordsAux, List.intercalate]
  | cons w ws ih =>
    obtain ⟨hw, hwc⟩ := h w (by simp)
    cases ws with
    | nil =>
      show pyWordsAux [] (List.intercalate [' '] [w]) = [w]
      rw [show List.intercalate [' '] [w] = w by simp [List.intercalate]]
      rw [show w = w ++ [] by simp, pyWordsAux_word w [] [] hwc]
      simp [pyWordsAux, hw]
    | cons w2 ws2 =>
      rw [intercalate_space_cons_cons, pyWords, pyWordsAux_word w _ _ hwc,
        List.append_nil, pyWordsAux_space _ _ (by simpa using hw),
        List.reverse_reverse]
      exact congrArg (w :: ·) (ih (fun x hx => h x (List.mem_cons_of_mem _ hx)))

theorem replFullwidth_of_not_ws (c : Char) (h : pyWs c = false) :
    replFullwidth c = c := by
  unfold replFullwidth
  split
  · next hcond =>
    exfalso
    rcases Bool.or_eq_true_iff.mp hcond with h1 | h1
    · rw [eq_of_beq h1] at h
      exact absurd h (by decide)
    · rw [eq_of_beq h1] at h
      exact absurd h (by decide)
  · rfl

theorem intercalate_space_chars (ws : List (List Char))
    (h : ∀ w ∈ ws, ∀ c ∈ w, pyWs c = false) :
    ∀ c ∈ List.intercalate [' '] ws, pyWs c = false ∨ c = ' ' := by
  induction ws with
  | nil => simp [List.intercalate]
  | cons w ws ih =>
    cases ws with
    | nil =>
      intro c hcmem
      rw [show List.intercalate [' '] [w] = w by simp [List.intercalate]] at hcmem
      exact Or.inl (h w (by simp) c hcmem)
    | cons w2 ws2 =>
      intro c hcmem
      rw [intercalate_space_cons_cons] at hcmem
      rcases List.mem_append.mp hcmem with hm | hm
      · exact Or.inl (h w (by simp) c hm)
      · rcases List.mem_cons.mp hm with hm | hm
        · exact Or.inr hm
        · exact ih (fun x hx => h x (List.mem_cons_of_mem _ hx)) c hm

theorem map_replFullwidth_id (l : List Char)
    (h : ∀ c ∈ l, pyWs c = false ∨ c = ' ') : l.map replFullwidth = l := by
  induction l with
  | nil => rfl
  | cons c rest ih =>
    have hc : replFullwidth c = c := by
      rcases h c (by simp) with hc | hc
      · exact replFullwidth_of_not_ws c hc
      · subst hc; rfl
    simp only [List.map_cons, hc, List.cons.injEq, true_and]
    exact ih (fun d hd => h d (List.mem_cons_of_mem _ hd))

theorem normL_idem (l : List Char) : normL (normL l) = normL l := by
  have hws : ∀ w ∈ pyWords (l.map replFullwidth), w ≠ [] ∧ ∀ c ∈ w, pyWs c = false :=
    pyWordsAux_sound (l.map replFullwidth) [] (by simp)
  conv_lhs => rw [normL, normL]
  rw [map_replFullwidth_id _
        (intercalate_space_chars _ (fun w hw c hc => (hws w hw).2 c hc)),
      pyWords_intercalate _ hws]
  rfl

/-- **C9.** `_norm` is idempotent: normalizing already-normalized text
returns it unchanged. -/
theorem norm_idempotent (s : String) : _norm (_norm s) = _norm s := by
  by_cases h : s = ""
  · simp [h, _norm]
  · by_cases h2 : _norm s = ""
    · rw [h2]
      simp [_norm]
    · have hNs : _norm s = String.mk (normL s.data) := by rw [_norm, if_neg h]
      have h3 : String.mk (normL s.data) ≠ "" := fun hh => h2 (by rw [hNs, hh])
      rw [hNs, _norm, if_neg h3]
      show String.mk (normL (normL s.data)) = String.mk (normL s.data)
      rw [normL_idem]

/-! ## Lemmas on `pyStrip` -/

theorem dropWhile_head_false (p : Char → Bool) (l : List Char) :
    ∀ c ∈ (l.dropWhile p).head?, p c = false := by
  induction l with
  | nil => simp
  | cons a t ih =>
    by_cases ha : p a
    · simpa [List.dropWhile_cons, ha] using ih
    · simp only [List.dropWhile_cons, ha]
      intro c hc
      simp only [Bool.false_eq_true, if_false, List.head?_cons, Option.mem_def,
        Option.some.injEq, reduceIte] at hc
      rw [← hc]
      simpa using ha

theorem getLast?_of_suffix {k l : List Char} (h : k <:+ l) (hk : k ≠ []) :
    l.getLast? = k.getLast? := by
  obtain ⟨pre, rfl⟩ := h
  rw [List.getLast?_append]
  cases hkl : k.getLast? with
  | none => exact absurd (List.getLast?_eq_none_iff.mp hkl) hk
  | some x => rfl

theorem pyStrip_eq_self (l : List Char) (h : noWsEnds l) : pyStrip l = l := by
  have h1 : l.dropWhile pyWs = l := by
    cases l with
    | nil => rfl
    | cons a t =>
      have ha := h.1 a (by simp)
      simp [List.dropWhile_cons, ha]
  have h2 : l.reverse.dropWhile pyWs = l.reverse := by
    cases hrev : l.reverse with
    | nil => rfl
    | cons a t =>
      have hga : l.getLast? = some a := by
        rw [← List.head?_reverse, hrev]
        rfl
      have ha := h.2 a hga
      rw [List.dropWhile_cons, ha]
      simp
  rw [pyStrip, h1, h2, List.reverse_reverse]

theorem pyStrip_noWsEnds (l : List Char) (h : pyStrip l ≠ []) :
    noWsEnds (pyStrip l) := by
  have hk0 : ((l.dropWhile pyWs).reverse.dropWhile pyWs) ≠ [] := by
    intro h0
    apply h
    rw [pyStrip, h0]
    rfl
  constructor
  · intro c hc
    rw [pyStrip, List.head?_reverse,
        ← getLast?_of_suffix (List.dropWhile_suffix pyWs) hk0,
        List.getLast?_reverse] at hc
    exact dropWhile_head_false pyWs l c hc
  · intro c hc
    rw [pyStrip, List.getLast?_reverse] at hc
    exact dropWhile_head_false pyWs (l.dropWhile pyWs).reverse c hc

theorem getLast?_ne_nil {l : List Char} (h : l ≠ []) : ∃ x, l.getLast? = some x := by
  cases hl : l.getLast? with
  | none => exact absurd (List.getLast?_eq_none_iff.mp hl) h
  | some x => exact ⟨x, rfl⟩

theorem noWsEnds_append (a b : List Char) (ha : a ≠ []) (hb : b ≠ [])
    (hA : noWsEnds a) (hB : noWsEnds b) : noWsEnds (a ++ ' ' :: b) := by
  constructor
  · intro c hc
    apply hA.1 c
    cases a with
    | nil => exact absurd rfl ha
    | cons x t => simpa using hc
  · intro c hc
    apply hB.2 c
    obtain ⟨y, hy⟩ := getLast?_ne_nil hb
    rw [List.getLast?_append, show (' ' :: b) = [' '] ++ b from rfl,
        List.getLast?_append, hy] at hc
    simpa [hy] using hc

/-! ## The merge-pass invariant of `split_text` (C1) -/

theorem parts_allStripped (text : List Char) :
    allStripped (((splitPat text).map pyStrip).filter (fun p => p ≠ [])) := by
  intro x hx
  rw [List.mem_filter] at hx
  obtain ⟨hmem, hne⟩ := hx
  have hne' : x ≠ [] := by simpa using hne
  obtain ⟨y, _, rfl⟩ := List.mem_map.mp hmem
  exact ⟨hne', pyStrip_noWsEnds y hne'⟩

theorem packAux_allStripped (max_chars : Nat) (parts : List (List Char)) :
    ∀ buf, (buf = [] ∨ (buf ≠ [] ∧ noWsEnds buf)) → allStripped parts →
    allStripped (packAux max_chars buf parts) := by
  induction parts with
  | nil =>
    intro buf hbuf _ x hx
    unfold packAux at hx
    rcases hbuf with rfl | hbuf
    · simp at hx
    · rw [if_neg hbuf.1] at hx
      rw [List.mem_singleton] at hx
      subst hx
      exact hbuf
  | cons p ps ih =>
    intro buf hbuf hp
    have hpp := hp p (by simp)
    have hps : allStripped ps := fun x hx => hp x (List.mem_cons_of_mem _ hx)
    unfold packAux
    by_cases hlen : buf.length + p.length + 1 ≤ max_chars
    · rw [if_pos hlen]
      rcases hbuf with rfl | hbuf
      · rw [if_pos rfl]
        exact ih p (Or.inr hpp) hps
      · rw [if_neg hbuf.1]
        refine ih _ (Or.inr ?_) hps
        have hj := noWsEnds_append buf p hbuf.1 hpp.1 hbuf.2 hpp.2
        rw [pyStrip_eq_self _ hj]
        exact ⟨by simp, hj⟩
    · rw [if_neg hlen]
      rcases hbuf with rfl | hbuf
      · rw [if_pos rfl]
        exact ih p (Or.inr hpp) hps
      · rw [if_neg hbuf.1]
        intro x hx
        rcases List.mem_cons.mp hx with rfl | hx
        · exact hbuf
        · exact ih p (Or.inr hpp) hps x hx

theorem mergeAux_head (min_chars limit : Nat) (l : List (List Char)) :
    ∀ cur, cur ≠ [] → noWsEnds cur → allStripped l →
    ∃ t rest, mergeAux min_chars limit cur l = t :: rest ∧ cur.length ≤ t.length := by
  induction l with
  | nil =>
    intro cur _ _ _
    exact ⟨cur, [], rfl, le_refl _⟩
  | cons c cs ih =>
    intro cur hcur hcurW hl
    have hc := hl c (by simp)
    have hcs : allStripped cs := fun x hx => hl x (List.mem_cons_of_mem _ hx)
    unfold mergeAux
    by_cases hcond : c.length < min_chars ∧ cur.length + c.length + 1 ≤ limit
    · rw [if_pos hcond]
      have hj := noWsEnds_append cur c hcur hc.1 hcurW hc.2
      rw [pyStrip_eq_self _ hj]
      obtain ⟨t, rest, heq, hle⟩ := ih (cur ++ ' ' :: c) (by simp) hj hcs
      refine ⟨t, rest, heq, le_trans ?_ hle⟩
      simp [List.length_append]
    · rw [if_neg hcond]
      exact ⟨cur, _, rfl, le_refl _⟩

theorem mergeAux_chain' (min_chars limit : Nat) (l : List (List Char)) :
    ∀ cur, cur ≠ [] → noWsEnds cur → allStripped l →
    List.Chain' (fun a b => min_chars ≤ b.length ∨ limit < a.length + b.length + 1)
      (mergeAux min_chars limit cur l) := by
  induction l with
  | nil =>
    intro cur _ _ _
    simp [mergeAux]
  | cons c cs ih =>
    intro cur hcur hcurW hl
    have hc := hl c (by simp)
    have hcs : allStripped cs := fun x hx => hl x (List.mem_cons_of_mem _ hx)
    unfold mergeAux
    by_cases hcond : c.length < min_chars ∧ cur.length + c.length + 1 ≤ limit
    · rw [if_pos hcond]
      have hj := noWsEnds_append cur c hcur hc.1 hcurW hc.2
      rw [pyStrip_eq_self _ hj]
      exact ih _ (by simp) hj hcs
    · rw [if_neg hcond]
      rw [List.chain'_cons']
      obtain ⟨t, rest, heq, hle⟩ := mergeAux_head min_chars limit cs c hc.1 hc.2 hcs
      constructor
      · intro y hy
        rw [heq] at hy
        simp only [List.head?_cons, Option.mem_def, Option.some.injEq] at hy
        subst hy
        rcases Nat.lt_or_ge c.length min_chars with hlt | hge
        · right
          have hnl : ¬ (cur.length + c.length + 1 ≤ limit) := fun hh => hcond ⟨hlt, hh⟩
          omega
        · left
          exact le_trans hge hle
      · exact ih c hc.1 hc.2 hcs

/-- **C1 (amended).** After the merge pass, every adjacent pair of produced
chunks satisfies: the second chunk has length at least `min_chars`, or
merging it into its (final) predecessor would have exceeded
`int(max_chars*1.5)`.  Equivalently, every chunk shorter than `min_chars`
other than the *first* is one whose merge into the previous chunk would
overflow the 1.5×`max_chars` limit. -/
theorem split_text_merge_chain (max_chars min_chars : Nat) (text : List Char) :
    List.Chain'
      (fun a b => min_chars ≤ b.length ∨ mergeLimit max_chars < a.length + b.length + 1)
      (split_text max_chars min_chars text) := by
  unfold split_text
  by_cases ht : text = []
  · simp [ht]
  · rw [if_neg ht]
    have hP := parts_allStripped text
    have hpacked := packAux_allStripped max_chars _ [] (Or.inl rfl) hP
    cases hpk : packAux max_chars []
        (((splitPat text).map pyStrip).filter (fun p => p ≠ [])) with
    | nil => simp [mergePass]
    | cons c cs =>
      rw [hpk] at hpacked
      have hc := hpacked c (by simp)
      have hcs : allStripped cs := fun x hx => hpacked x (List.mem_cons_of_mem _ hx)
      rw [show mergePass min_chars (mergeLimit max_chars) (c :: cs) =
            mergeAux min_chars (mergeLimit max_chars) c cs from rfl]
      exact mergeAux_chain' _ _ cs c hc.1 hc.2 hcs

/-- **C1 (counterexample).** With `max_chars = 10`, `min_chars = 6` and the
text `"aaaaaaaaaaaaaa。bb。cccccccccc"` (fragments of lengths 14, 2, 10),
the produced chunks have lengths `[14, 2, 10]`: the middle chunk is shorter
than `min_chars` although it is not the last chunk — the claim that only
the last chunk may be short is false. -/
theorem split_text_short_middle_chunk :
    ¬ (∀ i < (split_text 10 6 c1text).length - 1,
        6 ≤ ((split_text 10 6 c1text).getD i []).length) := by
  decide

/-- **C10.** `split_text` does not bound chunk length by `max_chars`:
a text consisting of a single 1501-character fragment yields a single chunk
of length 1501, which exceeds `MAX_CHARS = 1000` and even
`int(MAX_CHARS*1.5) = 1500`. -/
theorem split_text_exceeds_max :
    ∃ text c, c ∈ split_text_conv text ∧ MAX_CHARS < c.length ∧
      mergeLimit MAX_CHARS < c.length := by
  have hrep : ∀ n (cur : List Char),
      splitPatAux false cur (List.replicate n 'a') =
        [cur.reverse ++ List.replicate n 'a'] := by
    intro n
    induction n with
    | zero => intro cur; simp [splitPatAux]
    | succ k ih =>
      intro cur
      rw [List.replicate_succ]
      show splitPatAux false cur ('a' :: List.replicate k 'a') = _
      rw [show splitPatAux false cur ('a' :: List.replicate k 'a') =
            splitPatAux false ('a' :: cur) (List.replicate k 'a') by
          simp [splitPatAux, sepChar], ih]
      simp
  have h1501 : List.replicate 1501 'a' = 'a' :: List.replicate 1500 'a' := rfl
  have hdrop : List.dropWhile pyWs (List.replicate 1501 'a') =
      List.replicate 1501 'a' := by
    rw [h1501, List.dropWhile_cons, if_neg (by decide : ¬ (pyWs 'a' = true))]
  have hstrip : pyStrip (List.replicate 1501 'a') = List.replicate 1501 'a' := by
    rw [pyStrip, hdrop, List.reverse_replicate, hdrop, List.reverse_replicate]
  have hne : List.replicate 1501 'a' ≠ [] := by simp
  have hfil : ∀ (x : List Char), x ≠ [] →
      List.filter (fun p => p ≠ []) [x] = [x] := by
    intro x hx
    simp [List.filter_cons, hx]
  have hparts : ((splitPat (List.replicate 1501 'a')).map pyStrip).filter
      (fun p => p ≠ []) = [List.replicate 1501 'a'] := by
    rw [splitPat, hrep, List.reverse_nil, List.nil_append, List.map_cons,
      List.map_nil, hstrip]
    exact hfil _ hne
  have hpack : packAux MAX_CHARS [] [List.replicate 1501 'a'] =
      [List.replicate 1501 'a'] := by
    unfold packAux
    rw [if_neg (by simp [MAX_CHARS]), if_pos rfl]
    unfold packAux
    rw [if_neg hne]
  have hsplit : split_text_conv (List.replicate 1501 'a') =
      [List.replicate 1501 'a'] := by
    rw [split_text_conv, split_text, if_neg hne, hparts, hpack]
    rfl
  refine ⟨List.replicate 1501 'a', List.replicate 1501 'a', ?_, ?_, ?_⟩
  · rw [hsplit]; simp
  · simp [MAX_CHARS]
  · simp [MAX_CHARS, mergeLimit]

/-! ## C2: termination behaviour of `make_chunks` -/

theorem chunkLoop_isSome (text : List Char) (size overlap : Nat)
    (hov : overlap < size) :
    ∀ fuel start, text.length - start < fuel →
    (chunkLoop text text.length size overlap fuel start).isSome = true := by
  intro fuel
  induction fuel with
  | zero => intro start h; omega
  | succ k ih =>
    intro start h
    unfold chunkLoop
    by_cases hs : start < text.length
    · rw [if_pos hs]
      by_cases he : min (start + size) text.length = text.length
      · rw [if_pos he]
        rfl
      · rw [if_neg he]
        have hlt : start + size < text.length := by
          rcases Nat.lt_or_ge (start + size) text.length with hh | hh
          · exact hh
          · exact absurd (Nat.min_eq_right hh) he
        have hmin : min (start + size) text.length = start + size :=
          Nat.min_eq_left (Nat.le_of_lt hlt)
        have hrec := ih (min (start + size) text.length - overlap) (by omega)
        cases hcl : chunkLoop text text.length size overlap k
            (min (start + size) text.length - overlap) with
        | none => rw [hcl] at hrec; exact absurd hrec (by simp)
        | some rest => rfl
    · rw [if_neg hs]
      rfl

theorem chunkLoop_stuck (text : List Char) (size overlap : Nat)
    (hov : size ≤ overlap) (hlen : size < text.length) :
    ∀ fuel, chunkLoop text text.length size overlap fuel 0 = none := by
  intro fuel
  induction fuel with
  | zero => rfl
  | succ k ih =>
    unfold chunkLoop
    rw [if_pos (by omega : 0 < text.length)]
    have hmin : min (0 + size) text.length = size := by
      rw [Nat.zero_add]
      exact Nat.min_eq_left (Nat.le_of_lt hlen)
    rw [if_neg (by omega : ¬ (min (0 + size) text.length = text.length))]
    rw [show min (0 + size) text.length - overlap = 0 by omega, ih]

/-- **C2.** The fixed-window chunker terminates for every input under the
precondition `0 ≤ overlap < size` (fuel `len(text)+1` suffices), while for
`overlap ≥ size` and `len(text) > size` the window-start update
`start = max(0, end - overlap)` never increases `start` and the loop runs
forever (no amount of fuel makes it exit). -/
theorem make_chunks_termination (size overlap : Nat) (text : List Char) :
    (overlap < size → (make_chunks text size overlap).isSome = true) ∧
    (size ≤ overlap → size < text.length →
      (∀ start, nextStart size overlap text.length start ≤ start) ∧
      (∀ fuel, chunkLoop text text.length size overlap fuel 0 = none)) := by
  constructor
  · intro hov
    unfold make_chunks
    by_cases ht : text = []
    · rw [if_pos ht]; rfl
    · rw [if_neg ht]
      exact chunkLoop_isSome text size overlap hov (text.length + 1) 0 (by omega)
  · intro hov hlen
    constructor
    · intro start
      unfold nextStart
      have := Nat.min_le_left (start + size) text.length
      omega
    · exact chunkLoop_stuck text size overlap hov hlen

/-- Witness for the C2 theorem at concrete inputs: `size=3, overlap=1`
terminates on a 5-character text; `size=1, overlap=2` on a 3-character text
never advances from `start=0` and yields `none` at fuel 5. -/
theorem make_chunks_termination_witness :
    (make_chunks "abcde".data 3 1).isSome = true ∧
    nextStart 1 2 "abc".data.length 0 ≤ 0 ∧
    chunkLoop "abc".data "abc".data.length 1 2 5 0 = none := by
  refine ⟨(make_chunks_termination 3 1 "abcde".data).1 (by decide),
    ((make_chunks_termination 1 2 "abc".data).2 (by decide) (by decide)).1 0,
    ((make_chunks_termination 1 2 "abc".data).2 (by decide) (by decide)).2 5⟩

/-! ## C3: the dedup gate on short documents -/

theorem insertSeen_any (now : Nat) (url ck : String) (l : List SeenRow) :
    (insertSeen now url ck l).any (fun r => r.url = url) = true := by
  induction l with
  | nil => simp [insertSeen]
  | cons r rs ih =>
    unfold insertSeen
    by_cases hr : r.url = url
    · rw [if_pos hr]
      simp
    · rw [if_neg hr]
      simp [hr, ih]

theorem find?_insertSeen (now : Nat) (url ck : String) (l : List SeenRow) :
    (insertSeen now url ck l).find? (fun r => r.url = url) =
      some ⟨url, ck, now⟩ := by
  induction l with
  | nil => simp [insertSeen]
  | cons r rs ih =>
    unfold insertSeen
    by_cases hr : r.url = url
    · rw [if_pos hr]
      simp
    · rw [if_neg hr]
      simp [hr, ih]

/-- **C3.** For an unseen URL whose resolved text is shorter than 20
characters after trimming: the submission is rejected with reason `short`
and the URL is recorded in the `seen` index with the raw-bytes checksum (or
`""`) as its checksum value, the content index and the JSONL logs being
untouched; re-submitting the identical item is then rejected with reason
`dup-url` with no change to the store at all. -/
theorem process_item_short_then_dup (ext : Ext) (now now2 : Nat) (st : Store)
    (it : CrawlItem) (url : String)
    (hurl : it.url = some url)
    (hnew : seenQ st url = false)
    (hshort : (pyStripS (resolveText ext it)).length < 20) :
    process_item ext now st it =
      (POut.dropped "short", markSeen now url ((rawChecksum ext it).getD "") st) ∧
    seenChecksum (markSeen now url ((rawChecksum ext it).getD "") st) url =
      some ((rawChecksum ext it).getD "") ∧
    (markSeen now url ((rawChecksum ext it).getD "") st).textIndex = st.textIndex ∧
    (markSeen now url ((rawChecksum ext it).getD "") st).files = st.files ∧
    process_item ext now2 (markSeen now url ((rawChecksum ext it).getD "") st) it =
      (POut.dropped "dup-url", markSeen now url ((rawChecksum ext it).getD "") st) := by
  refine ⟨?_, ?_, rfl, rfl, ?_⟩
  · simp only [process_item, hurl, hnew, Bool.false_eq_true, if_false, hshort,
      if_true, if_pos hshort, reduceIte]
  · unfold seenChecksum markSeen
    simp only
    rw [find?_insertSeen]
    rfl
  · have hseen : seenQ (markSeen now url ((rawChecksum ext it).getD "") st) url
        = true := by
      unfold seenQ markSeen
      simp only
      exact insertSeen_any now url _ st.seen
    simp only [process_item, hurl, hseen, if_true, reduceIte]

/-- Witness for C3 at a concrete item: url `"u"`, no raw bytes, text field
`"hi"` (resolved length 2), empty store, constant external functions. -/
theorem process_item_short_then_dup_witness :
    process_item
        ⟨fun _ => "RB", fun _ => "SB", fun _ => "", fun _ => none, fun _ => "d"⟩
        0 ⟨[], [], []⟩
        ⟨some "u", [], none, none, some "hi", none, none, none, none, none,
         none, none, [], none, none⟩ =
      (POut.dropped "short",
        markSeen 0 "u"
          ((rawChecksum
              ⟨fun _ => "RB", fun _ => "SB", fun _ => "", fun _ => none, fun _ => "d"⟩
              ⟨some "u", [], none, none, some "hi", none, none, none, none, none,
               none, none, [], none, none⟩).getD "")
          ⟨[], [], []⟩) ∧
    process_item
        ⟨fun _ => "RB", fun _ => "SB", fun _ => "", fun _ => none, fun _ => "d"⟩
        7
        (markSeen 0 "u"
          ((rawChecksum
              ⟨fun _ => "RB", fun _ => "SB", fun _ => "", fun _ => none, fun _ => "d"⟩
              ⟨some "u", [], none, none, some "hi", none, none, none, none, none,
               none, none, [], none, none⟩).getD "")
          ⟨[], [], []⟩)
        ⟨some "u", [], none, none, some "hi", none, none, none, none, none,
         none, none, [], none, none⟩ =
      (POut.dropped "dup-url",
        markSeen 0 "u"
          ((rawChecksum
              ⟨fun _ => "RB", fun _ => "SB", fun _ => "", fun _ => none, fun _ => "d"⟩
              ⟨some "u", [], none, none, some "hi", none, none, none, none, none,
               none, none, [], none, none⟩).getD "")
          ⟨[], [], []⟩) := by
  have h := process_item_short_then_dup
    ⟨fun _ => "RB", fun _ => "SB", fun _ => "", fun _ => none, fun _ => "d"⟩
    0 7 ⟨[], [], []⟩
    ⟨some "u", [], none, none, some "hi", none, none, none, none, none,
     none, none, [], none, none⟩
    "u" rfl (by decide) (by decide)
  exact ⟨h.1, h.2.2.2.2⟩

/-! ## C4: upsert conflict semantics of `extra_json` -/

/-- **C4 (amended, holds for `ingest_jsonl_to_db.upsert_document`).**
On a url conflict, the updated row takes the new values of all mutable
fields, its `extra_json` is COALESCEd (a SQL-NULL new payload preserves the
stored one, a non-null one overwrites), the returned id is the stored
row's id, every row with a different url is untouched and no row is
added. -/
theorem upsert_document_db_extra (md5hex : String → String)
    (tbl : List DocRowDb) (serial : Int) (rec : DbRec) (old : DocRowDb)
    (hfind : tbl.find? (fun r =>
        r.url = ensure_url md5hex rec.url (rec.title.getD "") (rec.text.getD ""))
      = some old) :
    (upsert_document_db md5hex tbl serial rec).1 = old.id ∧
    (upsert_document_db md5hex tbl serial rec).2.2 = serial ∧
    ((upsert_document_db md5hex tbl serial rec).2.1.find? (fun r =>
        r.url = ensure_url md5hex rec.url (rec.title.getD "") (rec.text.getD "")))
      = some (updateDocRowDb rec (rec.text.getD "") old) ∧
    (updateDocRowDb rec (rec.text.getD "") old).domain = rec.domain ∧
    (updateDocRowDb rec (rec.text.getD "") old).fetched_at_iso = rec.fetched_at_iso ∧
    (updateDocRowDb rec (rec.text.getD "") old).title = rec.title ∧
    (updateDocRowDb rec (rec.text.getD "") old).lang = rec.lang ∧
    (updateDocRowDb rec (rec.text.getD "") old).text = rec.text.getD "" ∧
    (rec.extra_json = none →
      (updateDocRowDb rec (rec.text.getD "") old).extra_json = old.extra_json) ∧
    (∀ e, rec.extra_json = some e →
      (updateDocRowDb rec (rec.text.getD "") old).extra_json = some e) ∧
    (∀ r ∈ tbl,
      ¬ r.url = ensure_url md5hex rec.url (rec.title.getD "") (rec.text.getD "") →
      r ∈ (upsert_document_db md5hex tbl serial rec).2.1) := by
  have hold : old.url =
      ensure_url md5hex rec.url (rec.title.getD "") (rec.text.getD "") := by
    simpa using List.find?_some hfind
  refine ⟨?_, ?_, ?_, rfl, rfl, rfl, rfl, rfl, ?_, ?_, ?_⟩
  · simp only [upsert_document_db, hfind]
  · simp only [upsert_document_db, hfind]
  · simp only [upsert_document_db, hfind]
    rw [List.find?_map]
    rw [show ((fun r : DocRowDb =>
          decide (r.url =
            ensure_url md5hex rec.url (rec.title.getD "") (rec.text.getD ""))) ∘
        (fun r => if r.url =
            ensure_url md5hex rec.url (rec.title.getD "") (rec.text.getD "")
          then updateDocRowDb rec (rec.text.getD "") r else r)) =
        (fun r : DocRowDb =>
          decide (r.url =
            ensure_url md5hex rec.url (rec.title.getD "") (rec.text.getD ""))) by
      funext r
      by_cases h : r.url =
        ensure_url md5hex rec.url (rec.title.getD "") (rec.text.getD "")
      · simp [h, updateDocRowDb]
      · simp [h]]
    rw [hfind]
    simp [hold]
  · intro h
    simp [updateDocRowDb, h]
  · intro e he
    simp [updateDocRowDb, he]
  · intro r hr hne
    simp only [upsert_document_db, hfind]
    exact List.mem_map.mpr ⟨r, hr, by simp [hne]⟩

/-- Witness for the C4 theorem at a concrete conflict: the stored payload
`some "E"` survives a re-scrape with a NULL payload. -/
theorem upsert_document_db_extra_witness :
    ((upsert_document_db (fun _ => "H") [c4dbOld] 5 c4dbRec).2.1.find? (fun r =>
        r.url = ensure_url (fun _ => "H") c4dbRec.url (c4dbRec.title.getD "")
          (c4dbRec.text.getD "")))
      = some (updateDocRowDb c4dbRec (c4dbRec.text.getD "") c4dbOld) ∧
    (updateDocRowDb c4dbRec (c4dbRec.text.getD "") c4dbOld).extra_json =
      c4dbOld.extra_json := by
  have h := upsert_document_db_extra (fun _ => "H") [c4dbOld] 5 c4dbRec c4dbOld
    (by decide)
  exact ⟨h.2.2.1, h.2.2.2.2.2.2.2.2.1 rfl⟩

/-- **C4 (counterexample).** In `ingest_jsonl_to_polardb.upsert_document`
the conflict clause sets `extra_json = EXCLUDED.extra_json`
unconditionally: re-scraping url `"u"` with a record carrying no extra keys
(`extra = None`, serialized `"null"`) replaces the stored payload
`{"meta": 1}` with JSON null instead of preserving it. -/
theorem upsert_document_pg_overwrites_extra :
    (((upsert_document_pg (fun _ => "") [c4pgOld] 1 c4pgRec).2.1.find?
        (fun r => r.url = "u")).map (fun r => r.extra_json)) = some "null" ∧
    some "null" ≠ some ("\x7b\"meta\": 1\x7d" : String) := by
  decide

/-! ## C5: range of `stable_id` -/

/-- **C5 (amended).** Whenever the explicit-id branch does not fire (no
parseable `id` field), `stable_id` is the 63-bit-masked hash value:
non-negative and strictly below `2^63`, for every digest function.  (The
explicit-id branch returns `int(obj["id"])` unmasked, so the bound holds
there only if the external id already satisfies it.) -/
theorem stable_id_hash_bound (md5_16 sha1_16 : String → Nat) (obj : PyObj)
    (h : explicitId obj = none) :
    0 ≤ stable_id md5_16 sha1_16 obj ∧
      stable_id md5_16 sha1_16 obj < 2 ^ 63 := by
  have hmask : ∀ n : Nat, (n &&& (2 ^ 63 - 1)) < 2 ^ 63 := fun n =>
    Nat.and_lt_two_pow n (by norm_num)
  simp only [stable_id, h]
  constructor
  · split <;> exact_mod_cast Nat.zero_le _
  · split <;> exact_mod_cast hmask _

/-- Witness for C5 at a record with a url and no id field. -/
theorem stable_id_hash_bound_witness :
    0 ≤ stable_id (fun _ => 7) (fun _ => 7) [("url", PyScalar.pStr "http://x")] ∧
    stable_id (fun _ => 7) (fun _ => 7) [("url", PyScalar.pStr "http://x")] <
      2 ^ 63 :=
  stable_id_hash_bound (fun _ => 7) (fun _ => 7) _ (by decide)

/-- **C5 (counterexample).** A record with the explicit id `2^63` makes
`stable_id` return `2^63` itself (the explicit-id branch applies no mask),
violating the claimed strict `2^63` bound. -/
theorem stable_id_explicit_id_unbounded :
    stable_id (fun _ => 0) (fun _ => 0) [("id", PyScalar.pInt (2 ^ 63))] =
      (2 : Int) ^ 63 ∧
    ¬ (stable_id (fun _ => 0) (fun _ => 0) [("id", PyScalar.pInt (2 ^ 63))] <
        2 ^ 63) := by
  decide

/-! ## C6: bearer-table header fallback -/

/-- **C6 (amended).** The first row fails to qualify as a header row exactly
when it has no non-empty cells, or *fewer than 3*, **or** *fewer than
⌊n/2⌋*, of its non-empty cells match the bearer label vocabulary (the code
requires `count ≥ max(3, n//2)` to qualify).  When it fails, every row of
the table (the first included) is read positionally against headers derived
from the first row's `td` cells, where each column name is the matched
leading label, or the placeholder `列{i+1}` when no label prefix matches. -/
theorem table_rows_header_fallback (tbl : Table) :
    (headerQualifies tbl = false ↔
      (headerCells tbl = [] ∨ bearerMatchCount tbl < 3 ∨
        bearerMatchCount tbl < (headerCells tbl).length / 2)) ∧
    (headerQualifies tbl = false →
      _table_rows tbl =
        (tbl.map tdCells).filterMap
          (readRow (_derive_headers_from_first_row (tdCells (tbl.headD [])))) ∧
      ∀ i cell, (tdCells (tbl.headD [])).get? i = some cell →
        (_derive_headers_from_first_row (tdCells (tbl.headD []))).get? i =
          some (match bearerLabelMatch cell with
                | some lr => _norm lr.1
                | none => placeholderCol i)) := by
  constructor
  · unfold headerQualifies
    rw [decide_eq_false_iff_not, not_and_or, Nat.max_le, not_and_or]
    constructor
    · rintro (h | h)
      · exact Or.inl (not_not.mp h)
      · rcases h with h | h
        · exact Or.inr (Or.inl (by omega))
        · exact Or.inr (Or.inr (by omega))
    · rintro (h | h | h)
      · exact Or.inl (fun hh => hh h)
      · exact Or.inr (Or.inl (by omega))
      · exact Or.inr (Or.inr (by omega))
  · intro hq
    constructor
    · simp only [_table_rows, hq, Bool.false_eq_true, if_false, reduceIte]
      cases tbl <;> rfl
    · intro i cell hcell
      unfold _derive_headers_from_first_row
      rw [List.get?_map, List.get?_enum, hcell]
      rfl

/-- Witness for C6 at the concrete no-header table `c6table`. -/
theorem table_rows_header_fallback_witness :
    _table_rows c6table =
      (c6table.map tdCells).filterMap
        (readRow (_derive_headers_from_first_row (tdCells (c6table.headD [])))) :=
  ((table_rows_header_fallback c6table).2 (by decide)).1

/-- **C6 (counterexample).** On a first row with 4 non-empty cells of which
2 match the vocabulary, the code rejects the row as header (2 < max(3, 2)),
while the claimed condition "fewer than half AND fewer than 3" is false
(2 is not fewer than half = 2): the claimed biconditional fails. -/
theorem table_rows_header_iff_cex :
    ¬ ((headerQualifies c6table = false) ↔
        (bearerMatchCount c6table < (headerCells c6table).length / 2 ∧
         bearerMatchCount c6table < 3)) := by
  decide

/-! ## C7/C8: text synthesis -/

/-- **C7 (amended).** In `replace` mode, whenever meta or bearers *render a
non-empty block*, the output is exactly the `RULER`-joined non-empty blocks,
stripped — the body paragraphs are not concatenated; when neither renders a
block (also possible for a non-empty meta dict whose values are all blank),
the output falls back to the newline-joined body paragraphs. -/
theorem synth_replace_blocks (meta : Dict) (bearers : List Dict)
    (paras : List String) :
    (¬ (_block_meta_readable meta = "" ∧ _block_bearers_readable bearers = "") →
      synthText .replace .readable meta bearers paras =
        pyStripS (String.intercalate RULER
          ([_block_meta_readable meta, _block_bearers_readable bearers].filter
            (fun b => b ≠ "")))) ∧
    ((_block_meta_readable meta = "" ∧ _block_bearers_readable bearers = "") →
      synthText .replace .readable meta bearers paras =
        pyStripS (String.intercalate "\n" paras)) := by
  constructor
  · intro h
    unfold synthText
    by_cases hm : _block_meta_readable meta = ""
    · by_cases hb : _block_bearers_readable bearers = ""
      · exact absurd ⟨hm, hb⟩ h
      · simp [hm, hb]
    · by_cases hb : _block_bearers_readable bearers = ""
      · simp [hm, hb]
      · simp [hm, hb]
  · intro h
    unfold synthText
    simp [h.1, h.2]

/-- Witness for C7: a meta block present (output is the stripped block
join), and no blocks at all (output falls back to the body). -/
theorem synth_replace_blocks_witness :
    synthText .replace .readable [("类别", "传统技艺")] [] ["正文"] =
      pyStripS (String.intercalate RULER
        ([_block_meta_readable [("类别", "传统技艺")],
          _block_bearers_readable []].filter (fun b => b ≠ ""))) ∧
    synthText .replace .readable [] [] ["正文"] =
      pyStripS (String.intercalate "\n" ["正文"]) :=
  ⟨(synth_replace_blocks [("类别", "传统技艺")] [] ["正文"]).1 (by decide),
   (synth_replace_blocks [] [] ["正文"]).2 (by decide)⟩

/-- **C7 (counterexample).** With the non-empty meta dict `{"类别": " "}`
(its only value blank), no bearers and body `["第一段"]`, `replace` mode
renders no block and the output *is* the raw body paragraph — refuting the
claim that a non-empty meta makes the output the joined blocks only, free of
body paragraphs. -/
theorem synth_replace_nonempty_meta_cex :
    ¬ ((c7meta ≠ [] ∨ ([] : List Dict) ≠ []) →
        synthText .replace .readable c7meta [] ["第一段"] =
          pyStripS (String.intercalate RULER
            ([_block_meta_readable c7meta, _block_bearers_readable []].filter
              (fun b => b ≠ "")))) := by
  decide

/-- **C8.** The `none`-mode scenario: meta `{"项目编号": "Ⅵ-1", "类别":
"传统技艺"}`, no bearers, body paragraphs `["第一段。", "第二段。"]`
synthesize exactly `"项目编号：Ⅵ-1\n类别：传统技艺\n\n第一段。\n第二段。"`. -/
theorem synth_none_scenario :
    synthText .noneM .readable [("项目编号", "Ⅵ-1"), ("类别", "传统技艺")] []
      ["第一段。", "第二段。"] =
      "项目编号：Ⅵ-1\n类别：传统技艺\n\n第一段。\n第二段。" := by
  decide

end HeritageCrawl
